import Mathlib

/-!
# Employee Management System: request handlers over a document store

A shallow embedding of `Server/Controllers/AuthController.js`.

* The document store is three collections (employees, departments, positions), each a list
  of documents in the store's natural order.
* A handler is a function from the store (and the request) to a response, and for a mutating
  handler also to the store after the request.
* The aggregation stages the handlers use (`$match`, `$lookup`, `$unwind`, `$project`,
  `$sort`, `$skip`, `$limit`) are list functions; a stage the store rejects is an
  `Except.error`, which the handler's `catch` passes to `errorHandler`.
* A pagination parameter is `Option Nat`: what the unary plus of the source makes of the query
  string, `none` standing for `NaN` (parameter absent or not a number).
* The store leaves the order of a `$sort` among records of equal key open. A handler that
  sorts exists in two forms: `fetchEmployeeWith sort` and `searchEmployeeWith sort`, for an
  execution in which the store sorts by `sort`, and `fetchEmployee` and `searchEmployee`,
  which fix the stable sort `sortStage`.
-/

namespace EmployeeManagement

/-! ## Data model -/

/-- Document identifier of the store (an ObjectId). -/
abbrev ObjectId := Nat

/-- A document of the `departments` collection. -/
structure Department where
  _id : ObjectId
  name : String
deriving DecidableEq, Repr

/-- A document of the `positions` collection. -/
structure Position where
  _id : ObjectId
  name : String
  department_id : ObjectId
deriving DecidableEq, Repr

/-- A document of the `employees` collection. -/
structure Employee where
  _id : ObjectId
  name : String
  email : String
  phone : String
  dob : String
  address : String
  department_id : ObjectId
  position_id : ObjectId
  start_date : String
  salary : Nat
deriving DecidableEq, Repr

/-- The flattened record the `$project` stage of `fetchEmployee` and `searchEmployee` builds. -/
structure EmployeeRecord where
  _id : ObjectId
  name : String
  email : String
  phone : String
  dob : String
  address : String
  department_name : String
  position_name : String
  start_date : String
  salary : Nat
deriving DecidableEq, Repr

/-- The three collections the handlers read and write. -/
structure Store where
  employees : List Employee
  departments : List Department
  positions : List Position
deriving DecidableEq, Repr

/-- What a store operation throws: a value that does not cast to the type of its path, an
aggregation stage with an argument the store rejects, a regular expression that does not
compile, a write that a unique index of the collection rejects. -/
inductive StoreError where
  | castError
  | invalidStage
  | invalidRegex
  | duplicateKey
deriving DecidableEq, Repr

/-- The `data` member of the response envelope. -/
inductive Payload where
  | empty
  | departments (ds : List Department)
  | employees (rs : List EmployeeRecord)
  | page (rs : List EmployeeRecord) (totalPage : Option Nat)
  | employee (e : Option Employee)
deriving DecidableEq, Repr

/-- The response a handler sends: `res.status(code).json(status, message, data)`. -/
structure Response where
  code : Nat
  status : String
  message : String
  data : Payload
deriving DecidableEq, Repr

/-- The employee records a response carries (none when it carries no such list). -/
def Response.records (r : Response) : List EmployeeRecord :=
  match r.data with
  | .employees rs => rs
  | .page rs _ => rs
  | _ => []

/-- The `totalPage` member of a response, when its data has one. The inner option is the
number itself: `none` is a quotient that is not finite (`NaN` or `Infinity`). -/
def Response.totalPage (r : Response) : Option (Option Nat) :=
  match r.data with
  | .page _ tp => some tp
  | _ => none

/-- Modelled from the spec: `utils/errorHandler.js` is not among the sources. Section 7 of the
spec: internal errors are caught at the handler boundary and mapped to a 500 response with a
generic message. -/
def errorHandler (_error : StoreError) : Response :=
  { code := 500, status := "error", message := "Internal server error", data := .empty }

/-! ## Aggregation stages -/

/-- The `$lookup` from `departments` with `localField: department_id`, `foreignField: _id`:
every department whose identifier is the employee's `department_id`. -/
def lookupDepartment (s : Store) (e : Employee) : List Department :=
  s.departments.filter (fun d => d._id == e.department_id)

/-- The `$lookup` from `positions` with `localField: position_id`, `foreignField: _id`. -/
def lookupPosition (s : Store) (e : Employee) : List Position :=
  s.positions.filter (fun p => p._id == e.position_id)

/-- The `$project` stage: the employee's own fields and the two joined names. -/
def project (e : Employee) (d : Department) (p : Position) : EmployeeRecord :=
  { _id := e._id, name := e.name, email := e.email, phone := e.phone, dob := e.dob,
    address := e.address, department_name := d.name, position_name := p.name,
    start_date := e.start_date, salary := e.salary }

/-- The two `$lookup` stages, `$unwind: "$department"`, `$unwind: "$position"` and `$project`:
one record for each pair of a looked-up department and a looked-up position, none for a
document one of whose looked-up arrays is empty. -/
def joinEmployees (s : Store) (es : List Employee) : List EmployeeRecord :=
  es.flatMap (fun e =>
    (lookupDepartment s e).flatMap (fun d =>
      (lookupPosition s e).map (fun p => project e d p)))

/-- The sort key `(department_name, position_name, name)`, each string as its list of
characters, under the lexicographic order of the triple. -/
def sortKey (r : EmployeeRecord) : List Char ×ₗ List Char ×ₗ List Char :=
  toLex (r.department_name.toList, toLex (r.position_name.toList, r.name.toList))

/-- The order of the `$sort` stage (all three keys ascending). -/
def keyLe (a b : EmployeeRecord) : Prop := sortKey a ≤ sortKey b

instance : DecidableRel keyLe := fun a b => inferInstanceAs (Decidable (sortKey a ≤ sortKey b))

/-- What the store promises of a `$sort` stage: `out` is an outcome of sorting `inp` when it
holds the same records in non-decreasing order of the key. The order among records of equal
key is left open, and may differ from one execution of the same aggregation to the next. -/
def IsSortOf (out inp : List EmployeeRecord) : Prop :=
  out.Perm inp ∧ out.Sorted keyLe

instance (out inp : List EmployeeRecord) : Decidable (IsSortOf out inp) := by
  unfold IsSortOf
  exact inferInstance

/-- A way of carrying out the `$sort` stage: every outcome is one the store may give. -/
def Admissible (sort : List EmployeeRecord → List EmployeeRecord) : Prop :=
  ∀ rs, IsSortOf (sort rs) rs

/-- One way of carrying out the `$sort` stage: records of equal key stay in their order of
arrival. -/
def sortStage (rs : List EmployeeRecord) : List EmployeeRecord :=
  rs.insertionSort keyLe

/-- Another way of carrying out the `$sort` stage: records of equal key come out in the
reverse of their order of arrival. -/
def sortStageRev (rs : List EmployeeRecord) : List EmployeeRecord :=
  rs.reverse.insertionSort keyLe

/-- The `$skip` stage appended by `query.skip(n)`: the store rejects `NaN`. -/
def skipStage {α : Type} (n : Option Nat) (xs : List α) : Except StoreError (List α) :=
  match n with
  | none => .error .invalidStage
  | some k => .ok (xs.drop k)

/-- The `$limit` stage appended by `query.limit(n)`: the store rejects `NaN` and requires the
limit to be positive. -/
def limitStage {α : Type} (n : Option Nat) (xs : List α) : Except StoreError (List α) :=
  match n with
  | none => .error .invalidStage
  | some 0 => .error .invalidStage
  | some (k + 1) => .ok (xs.take (k + 1))

/-- The call `query.skip(+itemOffset).limit(+itemsPerPage).exec()`: the two stages appended
to the aggregation `query` has already built. -/
def paginate {α : Type} (itemOffset itemsPerPage : Option Nat) (query : List α) :
    Except StoreError (List α) :=
  skipStage itemOffset query >>= limitStage itemsPerPage

/-- The test `!+x` of the source on a pagination parameter: `NaN` and `0` are falsy. -/
def notNumber (x : Option Nat) : Bool :=
  match x with
  | none => true
  | some 0 => true
  | some (_ + 1) => false

/-- The expression `Math.ceil(count / itemsPerPage)`: not finite when `itemsPerPage` is `NaN`
or zero. -/
def ceilDiv (count : Nat) (itemsPerPage : Option Nat) : Option Nat :=
  match itemsPerPage with
  | none => none
  | some 0 => none
  | some (k + 1) => some ((count + k) / (k + 1))

/-! ## Employee listing -/

/-- The query string of `fetchEmployee`. -/
structure PageQuery where
  itemsPerPage : Option Nat
  itemOffset : Option Nat
deriving DecidableEq, Repr

/-- The aggregation `fetchEmployee` builds: join, project, sort. `sort` is the way the store
carries out the `$sort` stage in the execution at hand. -/
def employeeQueryWith (sort : List EmployeeRecord → List EmployeeRecord) (s : Store) :
    List EmployeeRecord :=
  sort (joinEmployees s s.employees)

/-- The aggregation of `fetchEmployee` when the store sorts by `sortStage`. -/
def employeeQuery (s : Store) : List EmployeeRecord :=
  sortStage (joinEmployees s s.employees)

/-- The handler `fetchEmployee`, in an execution whose `$sort` stage the store carries out
by `sort`. -/
def fetchEmployeeWith (sort : List EmployeeRecord → List EmployeeRecord) (s : Store)
    (q : PageQuery) : Response :=
  let query := employeeQueryWith sort s
  if notNumber q.itemsPerPage && notNumber q.itemOffset then
    { code := 200, status := "success", message := "Get employee successfully",
      data := .employees query }
  else
    let totalCount := s.employees.length
    let totalPage := ceilDiv totalCount q.itemsPerPage
    match paginate q.itemOffset q.itemsPerPage query with
    | .ok results =>
      { code := 200, status := "success", message := "Get employee successfully",
        data := .page results totalPage }
    | .error error => errorHandler error

/-- The handler `fetchEmployee` when the store sorts by `sortStage`. -/
def fetchEmployee (s : Store) (q : PageQuery) : Response :=
  fetchEmployeeWith sortStage s q

/-! ## Employee search -/

/-- An identifier as it arrives in a request, a string: it casts to an ObjectId or it does
not. -/
inductive RawId where
  | malformed
  | wellFormed (id : ObjectId)
deriving DecidableEq, Repr

/-- The query string of `searchEmployee`. For `position_id` and `department_id`, `none` is a
parameter that is absent or the empty string: the two values the tests `if (position_id)` and
`if (department_id)` take for false. -/
structure SearchQuery where
  name : Option String
  position_id : Option RawId
  department_id : Option RawId
  itemsPerPage : Option Nat
  itemOffset : Option Nat
deriving DecidableEq, Repr

/-- The object `queryCondition`: a member is `none` when the handler did not set it. -/
structure QueryCondition where
  name : Option String
  position_id : Option RawId
  department_id : Option RawId
deriving DecidableEq, Repr

/-- The three `if` statements that fill `queryCondition`; `if (name)` is false for an absent
and for an empty name. -/
def buildCondition (q : SearchQuery) : QueryCondition :=
  { name := match q.name with
      | none => none
      | some n => if n = "" then none else some n
    position_id := q.position_id
    department_id := q.department_id }

/-- The cast of an identifier string to an ObjectId, by the schema in `countDocuments` and by
`new ObjectId(...)` before the aggregation: it throws on a string that is no identifier. -/
def castId (r : RawId) : Except StoreError ObjectId :=
  match r with
  | .malformed => .error .castError
  | .wellFormed id => .ok id

/-- The member `name` of a `queryCondition` as a predicate on names. `regex p` is the store's
matcher for the pattern `p` under `$options: 'i'`, `none` for a pattern that does not
compile. -/
def compileName (regex : String → Option (String → Bool)) (name : Option String) :
    Except StoreError (String → Bool) :=
  match name with
  | none => .ok (fun _ => true)
  | some p =>
    match regex p with
    | none => .error .invalidRegex
    | some m => .ok m

/-- An identifier member of a `queryCondition` as a predicate on identifiers: exact match. -/
def compileId (r : Option RawId) : Except StoreError (ObjectId → Bool) :=
  match r with
  | none => .ok (fun _ => true)
  | some raw =>
    match castId raw with
    | .error error => .error error
    | .ok id => .ok (fun x => x == id)

/-- The predicate a `queryCondition` stands for: the conjunction of its members. -/
def compileCondition (regex : String → Option (String → Bool)) (c : QueryCondition) :
    Except StoreError (Employee → Bool) := do
  let nameOk ← compileName regex c.name
  let positionOk ← compileId c.position_id
  let departmentOk ← compileId c.department_id
  pure (fun (e : Employee) =>
    nameOk e.name && positionOk e.position_id && departmentOk e.department_id)

/-- The call `EmployeeModel.countDocuments(queryCondition)`. -/
def countDocuments (regex : String → Option (String → Bool)) (s : Store) (c : QueryCondition) :
    Except StoreError Nat := do
  let keep ← compileCondition regex c
  pure (s.employees.filter keep).length

/-- The conversion loop `new ObjectId(queryCondition[key])` and the `$match` stage. -/
def matchStage (regex : String → Option (String → Bool)) (c : QueryCondition)
    (es : List Employee) : Except StoreError (List Employee) := do
  let keep ← compileCondition regex c
  pure (es.filter keep)

/-- The aggregation `searchEmployee` builds, before `skip` and `limit` are appended: match,
join, project, sort. `sort` is the way the store carries out the `$sort` stage in the
execution at hand. -/
def searchQueryWith (sort : List EmployeeRecord → List EmployeeRecord)
    (regex : String → Option (String → Bool)) (s : Store) (c : QueryCondition) :
    Except StoreError (List EmployeeRecord) := do
  let matched ← matchStage regex c s.employees
  pure (sort (joinEmployees s matched))

/-- The aggregation of `searchEmployee` when the store sorts by `sortStage`. -/
def searchQuery (regex : String → Option (String → Bool)) (s : Store) (c : QueryCondition) :
    Except StoreError (List EmployeeRecord) :=
  searchQueryWith sortStage regex s c

/-- The body of the `try` block of `searchEmployee`: the page and `totalPage`. -/
def searchEmployeeTryWith (sort : List EmployeeRecord → List EmployeeRecord)
    (regex : String → Option (String → Bool)) (s : Store) (q : SearchQuery) :
    Except StoreError (List EmployeeRecord × Option Nat) := do
  let queryCondition := buildCondition q
  let dataCount ← countDocuments regex s queryCondition
  let totalPage := ceilDiv dataCount q.itemsPerPage
  let query ← searchQueryWith sort regex s queryCondition
  let results ← paginate q.itemOffset q.itemsPerPage query
  pure (results, totalPage)

/-- The body of the `try` block of `searchEmployee` when the store sorts by `sortStage`. -/
def searchEmployeeTry (regex : String → Option (String → Bool)) (s : Store) (q : SearchQuery) :
    Except StoreError (List EmployeeRecord × Option Nat) :=
  searchEmployeeTryWith sortStage regex s q

/-- The handler `searchEmployee`, in an execution whose `$sort` stage the store carries out
by `sort`. -/
def searchEmployeeWith (sort : List EmployeeRecord → List EmployeeRecord)
    (regex : String → Option (String → Bool)) (s : Store) (q : SearchQuery) : Response :=
  match searchEmployeeTryWith sort regex s q with
  | .ok (results, totalPage) =>
    { code := 200, status := "success", message := "Search employee successfully",
      data := .page results totalPage }
  | .error error => errorHandler error

/-- The handler `searchEmployee` when the store sorts by `sortStage`. -/
def searchEmployee (regex : String → Option (String → Bool)) (s : Store) (q : SearchQuery) :
    Response :=
  searchEmployeeWith sortStage regex s q

/-! ## Departments -/

/-- The white space `String.prototype.trim` removes. -/
def isJsWhitespace (c : Char) : Bool :=
  c.toNat ∈ [0x9, 0xA, 0xB, 0xC, 0xD, 0x20, 0xA0, 0x1680, 0x2000, 0x2001, 0x2002, 0x2003,
    0x2004, 0x2005, 0x2006, 0x2007, 0x2008, 0x2009, 0x200A, 0x2028, 0x2029, 0x202F, 0x205F,
    0x3000, 0xFEFF]

/-- The schema `Joi.string().trim().min(1).required()` on the member `department` of the body
(`none`: the member is missing or no string): the trimmed string has at least one character,
that is, the string has a character that is no white space. -/
def validateDepartment (department : Option String) : Bool :=
  match department with
  | none => false
  | some d => d.toList.any (fun c => !isJsWhitespace c)

/-- The handler `addDepartment`; `fresh` is the identifier the store gives the new document.
The name stored is `req.body.department` as received, not the trimmed value. -/
def addDepartment (s : Store) (fresh : ObjectId) (department : Option String) :
    Response × Store :=
  if !validateDepartment department then
    ({ code := 400, status := "error",
       message := "Invalid input data. Please check and try again.", data := .empty }, s)
  else
    match department with
    | none => -- not reached: validation has rejected a missing name
      ({ code := 400, status := "error",
         message := "Invalid input data. Please check and try again.", data := .empty }, s)
    | some name =>
      match s.departments.find? (fun d => d.name == name) with
      | some _ =>
        ({ code := 409, status := "error", message := "Department already exists",
           data := .empty }, s)
      | none =>
        ({ code := 201, status := "success", message := "Department created successfully",
           data := .empty },
         { s with departments := s.departments ++ [{ _id := fresh, name := name }] })

/-- The handler `fetchDepartment`. -/
def fetchDepartment (s : Store) : Response :=
  let results := s.departments
  if results.length = 0 then
    { code := 404, status := "error", message := "Department not found", data := .empty }
  else
    { code := 200, status := "success", message := "Get department successfully",
      data := .departments results }

/-! ## Deletion -/

/-- The call `Model.findByIdAndDelete(_id)` on a collection: it throws on an identifier that
does not cast, returns `none` and leaves the collection alone when no document has the
identifier, and otherwise returns the document and removes it. -/
def findByIdAndDelete {α : Type} (idOf : α → ObjectId) (xs : List α) (_id : RawId) :
    Except StoreError (Option α × List α) := do
  let id ← castId _id
  match xs.find? (fun x => idOf x == id) with
  | none => pure (none, xs)
  | some x => pure (some x, xs.eraseP (fun x => idOf x == id))

/-- The handler `deleteEmployee`. -/
def deleteEmployee (s : Store) (_id : RawId) : Response × Store :=
  match findByIdAndDelete Employee._id s.employees _id with
  | .ok (none, _) =>
    ({ code := 404, status := "error", message := "Failed to delete employee",
       data := .empty }, s)
  | .ok (some _, rest) =>
    ({ code := 200, status := "success", message := "Deleted employee successfully",
       data := .empty }, { s with employees := rest })
  | .error error => (errorHandler error, s)

/-- The handler `deleteDepartment`. -/
def deleteDepartment (s : Store) (_id : RawId) : Response × Store :=
  match findByIdAndDelete Department._id s.departments _id with
  | .ok (none, _) =>
    ({ code := 404, status := "error", message := "Department not found",
       data := .empty }, s)
  | .ok (some _, rest) =>
    ({ code := 200, status := "success", message := "Deleted department successfully",
       data := .empty }, { s with departments := rest })
  | .error error => (errorHandler error, s)

/-- The handler `deletePosition`. -/
def deletePosition (s : Store) (_id : RawId) : Response × Store :=
  match findByIdAndDelete Position._id s.positions _id with
  | .ok (none, _) =>
    ({ code := 404, status := "error", message := "Position not found",
       data := .empty }, s)
  | .ok (some _, rest) =>
    ({ code := 200, status := "success", message := "Deleted position successfully",
       data := .empty }, { s with positions := rest })
  | .error error => (errorHandler error, s)

/-! ## Bulk import -/

/-- The `for` loop of the `end` listener of `uploadFile` over the parsed rows: the value of
`hasError` when the loop ends, and the store it leaves. A row is the document
`EmployeeModel.create(item)` stores, its identifier included. -/
def importLoop (s : Store) (employeeData : List Employee) : Bool × Store :=
  match employeeData with
  | [] => (false, s)
  | item :: rest =>
    match s.employees.find? (fun e => e.email == item.email) with
    | some _ => (true, s)
    | none => importLoop { s with employees := s.employees ++ [item] } rest

/-- The handler `uploadFile`. The stream listeners are registered and the handler goes on to
`if (hasError)` at once: the `end` listener, and with it the loop, runs only after the
response has been chosen, so the test reads the initial value of `hasError`. -/
def uploadFile (s : Store) (employeeData : List Employee) : Response × Store :=
  let hasError := false
  let response : Response :=
    if hasError then
      { code := 409, status := "error", message := "Data import is invalid", data := .empty }
    else
      { code := 200, status := "success", message := "Created employee successfully",
        data := .empty }
  (response, (importLoop s employeeData).2)

/-! ## Employees by identifier -/

/-- The body of an employee request: the nine members the schema of
`utils/validateEmployee.js` names, the two references already cast to identifiers. -/
structure EmployeeBody where
  name : String
  email : String
  phone : String
  dob : String
  address : String
  department_id : ObjectId
  position_id : ObjectId
  start_date : String
  salary : Nat
deriving DecidableEq, Repr

/-- The document `EmployeeModel.create(req.body)` stores, under the identifier the store
gives it. -/
def EmployeeBody.toEmployee (body : EmployeeBody) (_id : ObjectId) : Employee :=
  { _id := _id, name := body.name, email := body.email, phone := body.phone, dob := body.dob,
    address := body.address, department_id := body.department_id,
    position_id := body.position_id, start_date := body.start_date, salary := body.salary }

/-- The call `EmployeeModel.findById(_id)`: it throws on an identifier that does not cast and
returns `none` (`null`) when no document has the identifier. -/
def findById {α : Type} (idOf : α → ObjectId) (xs : List α) (_id : RawId) :
    Except StoreError (Option α) := do
  let id ← castId _id
  pure (xs.find? (fun x => idOf x == id))

/-- The handler `fetchEmployeeById`: the result of `findById` goes into the response as it
is, `null` included. -/
def fetchEmployeeById (s : Store) (_id : RawId) : Response :=
  match findById Employee._id s.employees _id with
  | .ok results =>
    { code := 200, status := "success", message := "Get employee successfully",
      data := .employee results }
  | .error error => errorHandler error

/-- The first element that satisfies `p` replaced by its image under `f`. -/
def updateFirst {α : Type} (p : α → Bool) (f : α → α) : List α → List α
  | [] => []
  | x :: xs => if p x then f x :: xs else x :: updateFirst p f xs

/-- The call `EmployeeModel.findByIdAndUpdate(_id, req.body)`: it throws on an identifier
that does not cast, returns `none` and writes nothing when no document has the identifier,
and otherwise sets the members of the body on the document and returns the document.
`uniqueEmail` tells whether the collection has a unique index on `email`: with the index, a
write that gives the document the email of another document of the collection is
rejected. -/
def findByIdAndUpdate (uniqueEmail : Bool) (es : List Employee) (_id : RawId)
    (body : EmployeeBody) : Except StoreError (Option Employee × List Employee) := do
  let id ← castId _id
  match es.find? (fun e => e._id == id) with
  | none => pure (none, es)
  | some old =>
    if uniqueEmail &&
        (es.eraseP (fun e => e._id == id)).any (fun e => e.email == body.email) then
      throw StoreError.duplicateKey
    else
      pure (some old, updateFirst (fun e => e._id == id) (fun e => body.toEmployee e._id) es)

/-- Modelled from the spec: the schema `Models/EmployeeModel.js` is not among the sources.
Section 3 of the spec gives the employee an `email (unique)` and keeps the emails of the
collection unique, the wording `Models/AdminModel.js` implements as `unique: true`: the
employees collection has a unique index on `email`. -/
def employeeEmailUnique : Bool := true

/-- The handler `editEmployee`; `validate` is the schema of `utils/validateEmployee.js`,
`uniqueEmail` the index of the collection (`employeeEmailUnique`). -/
def editEmployee (validate : EmployeeBody → Bool) (uniqueEmail : Bool) (s : Store)
    (_id : RawId) (body : EmployeeBody) : Response × Store :=
  if !validate body then
    ({ code := 400, status := "error",
       message := "Invalid input data. Please check and try again.", data := .empty }, s)
  else
    match findByIdAndUpdate uniqueEmail s.employees _id body with
    | .ok (none, _) =>
      ({ code := 500, status := "error", message := "Failed to update employee",
         data := .empty }, s)
    | .ok (some _, employees) =>
      ({ code := 200, status := "success", message := "Updated employee successfully",
         data := .empty }, { s with employees := employees })
    | .error error => (errorHandler error, s)

/-- The handler `addEmployee`; `fresh` is the identifier the store gives the new document.
`EmployeeModel.create` returns the document it stored, so the branch `if (!results)` is not
taken. -/
def addEmployee (validate : EmployeeBody → Bool) (s : Store) (fresh : ObjectId)
    (body : EmployeeBody) : Response × Store :=
  if !validate body then
    ({ code := 400, status := "error",
       message := "Invalid input data. Please check and try again.", data := .empty }, s)
  else
    match s.employees.find? (fun e => e.email == body.email) with
    | some _ =>
      ({ code := 409, status := "error", message := "Email already exists, try another one",
         data := .empty }, s)
    | none =>
      ({ code := 201, status := "success", message := "Created employee successfully",
         data := .empty }, { s with employees := s.employees ++ [body.toEmployee fresh] })

/-! ## Positions -/

/-- The handler `addPosition`; `fresh` is the identifier the store gives the new document.
For `department_id`, `none` is a member the schema `Joi.string().trim().min(1).required()`
rejects. -/
def addPosition (s : Store) (fresh : ObjectId) (position : Option String)
    (department_id : Option RawId) : Response × Store :=
  match validateDepartment position, position, department_id with
  | true, some name, some raw =>
    match s.positions.find? (fun p => p.name == name) with
    | some _ =>
      ({ code := 409, status := "error", message := "Position already exists",
         data := .empty }, s)
    | none =>
      match findById Department._id s.departments raw with
      | .error error => (errorHandler error, s)
      | .ok none =>
        ({ code := 404, status := "error", message := "Department does not exist",
           data := .empty }, s)
      | .ok (some department) =>
        ({ code := 201, status := "success", message := "Position created successfully",
           data := .empty },
         { s with positions := s.positions ++
            [{ _id := fresh, name := name, department_id := department._id }] })
  | _, _, _ =>
    ({ code := 400, status := "error",
       message := "Invalid input data. Please check and try again.", data := .empty }, s)

/-! ## Vocabulary of the properties -/

/-- The departments a response carries (none when it carries no such list). -/
def Response.departments (r : Response) : List Department :=
  match r.data with
  | .departments ds => ds
  | _ => []

/-- The lexicographic order on the triples `(department_name, position_name, name)` of two
records, in the order of strings: the order the sorting property of the spec names. -/
def tripleLe (a b : EmployeeRecord) : Prop :=
  a.department_name < b.department_name ∨
  (a.department_name = b.department_name ∧
    (a.position_name < b.position_name ∨
      (a.position_name = b.position_name ∧ a.name ≤ b.name)))

/-- The record of an employee as the spec describes the join: the employee joined to the
department its `department_id` names and to the position its `position_id` names, and no
record when one of the two references matches no document. -/
def resolve (s : Store) (e : Employee) : Option EmployeeRecord :=
  match s.departments.find? (fun d => d._id == e.department_id),
    s.positions.find? (fun p => p._id == e.position_id) with
  | some d, some p => some (project e d p)
  | _, _ => none

/-- Whether a name matches the name asked for, when one is supplied (a name is supplied when
it is not empty). -/
def nameSatisfies (regex : String → Option (String → Bool)) (name : Option String)
    (x : String) : Bool :=
  match name with
  | none => true
  | some n =>
    if n = "" then true
    else
      match regex n with
      | some m => m x
      | none => false

/-- Whether an identifier is the identifier asked for, when one is supplied. -/
def idSatisfies (raw : Option RawId) (x : ObjectId) : Bool :=
  match raw with
  | some (.wellFormed id) => x == id
  | _ => true

/-- Whether an employee satisfies the filter of a search request, in the words of the spec:
the name matches, the `position_id` is the one asked for, the `department_id` is the one
asked for, each only when supplied. -/
def satisfiesFilter (regex : String → Option (String → Bool)) (q : SearchQuery)
    (e : Employee) : Bool :=
  nameSatisfies regex q.name e.name && idSatisfies q.position_id e.position_id &&
    idSatisfies q.department_id e.department_id

/-- The uniqueness invariant of the data model: no two employees share an email, no two
departments share a name, no two positions share a name. -/
def UniqueKeys (s : Store) : Prop :=
  (s.employees.map Employee.email).Nodup ∧ (s.departments.map Department.name).Nodup ∧
    (s.positions.map Position.name).Nodup

instance (s : Store) : Decidable (UniqueKeys s) := by
  unfold UniqueKeys
  exact inferInstance

/-- No two records of the list have the same sort key. -/
def DistinctKeys (rs : List EmployeeRecord) : Prop :=
  rs.Pairwise (fun a b => sortKey a ≠ sortKey b)

instance (rs : List EmployeeRecord) : Decidable (DistinctKeys rs) := by
  unfold DistinctKeys
  exact inferInstance

/-! ## Sample data -/

/-- Whether the first list of characters begins the second. -/
def beginsWith : List Char → List Char → Bool
  | [], _ => true
  | _ :: _, [] => false
  | a :: as, b :: bs => a == b && beginsWith as bs

/-- A case-sensitive stand-in for the store's matcher: the pattern is found somewhere in the
text. Every pattern compiles. -/
def containsMatcher (pattern : String) : Option (String → Bool) :=
  some (fun text => text.toList.tails.any (beginsWith pattern.toList))

/-- A store with two departments, two positions and four employees, the last of whom refers
to a department that does not exist. -/
def sampleStore : Store :=
  { departments := [⟨1, "Engineering"⟩, ⟨2, "Art"⟩]
    positions := [⟨10, "Backend Engineer", 1⟩, ⟨11, "Painter", 2⟩]
    employees :=
      [ ⟨100, "Zed", "zed@example.com", "1", "1990-01-01", "A", 1, 10, "2020-01-01", 50⟩,
        ⟨101, "Amy", "amy@example.com", "2", "1991-01-01", "B", 2, 11, "2020-01-02", 60⟩,
        ⟨102, "Bob", "bob@example.com", "3", "1992-01-01", "C", 1, 10, "2020-01-03", 70⟩,
        ⟨103, "Nil", "nil@example.com", "4", "1993-01-01", "D", 9, 10, "2020-01-04", 80⟩ ] }

/-- A search for the employees of department 1 of the sample store, five per page. -/
def sampleSearch : SearchQuery :=
  { name := none, position_id := none, department_id := some (.wellFormed 1),
    itemsPerPage := some 5, itemOffset := some 0 }

/-- The record of employee 102 of the sample store. -/
def sampleRecord : EmployeeRecord :=
  { _id := 102, name := "Bob", email := "bob@example.com", phone := "3", dob := "1992-01-01",
    address := "C", department_name := "Engineering", position_name := "Backend Engineer",
    start_date := "2020-01-03", salary := 70 }

/-- A search of the sample store with no pagination parameter at all. -/
def searchAll : SearchQuery :=
  { name := none, position_id := none, department_id := none,
    itemsPerPage := none, itemOffset := none }

/-- A search of the sample store with both pagination parameters zero. -/
def searchAllZero : SearchQuery :=
  { name := none, position_id := none, department_id := none,
    itemsPerPage := some 0, itemOffset := some 0 }

/-- An import file of three rows; the second has the email of employee 101 of the sample
store. -/
def sampleImport : List Employee :=
  [ ⟨200, "Cy", "cy@example.com", "5", "1994-01-01", "E", 1, 10, "2021-01-01", 40⟩,
    ⟨201, "Amy Two", "amy@example.com", "6", "1995-01-01", "F", 2, 11, "2021-01-02", 41⟩,
    ⟨202, "Di", "di@example.com", "7", "1996-01-01", "G", 1, 10, "2021-01-03", 42⟩ ]

/-- A stand-in for the schema of `utils/validateEmployee.js`: every text member is present
and the email has an `@`. -/
def sampleValidate (body : EmployeeBody) : Bool :=
  body.name != "" && body.email != "" && body.phone != "" && body.dob != "" &&
    body.address != "" && body.start_date != "" && body.email.toList.contains '@'

/-- A body for employee 100 of the sample store, with the email of employee 101. -/
def sampleBody : EmployeeBody :=
  { name := "Zed", email := "amy@example.com", phone := "1", dob := "1990-01-01",
    address := "A", department_id := 1, position_id := 10, start_date := "2020-01-01",
    salary := 50 }

/-- A store whose two employees have the same name, department and position. -/
def tieStore : Store :=
  { departments := [⟨1, "Engineering"⟩]
    positions := [⟨10, "Backend Engineer", 1⟩]
    employees :=
      [ ⟨100, "Amy", "amy.one@example.com", "1", "1990-01-01", "A", 1, 10, "2020-01-01", 50⟩,
        ⟨101, "Amy", "amy.two@example.com", "2", "1991-01-01", "B", 1, 10, "2020-01-02", 60⟩ ] }

/-! ## The order of the sort stage -/

instance : IsTotal EmployeeRecord keyLe := ⟨fun a b => le_total (sortKey a) (sortKey b)⟩

instance : IsTrans EmployeeRecord keyLe := ⟨fun _ _ _ h₁ h₂ => le_trans h₁ h₂⟩

theorem sortStage_sorted (rs : List EmployeeRecord) : List.Sorted keyLe (sortStage rs) :=
  List.sorted_insertionSort keyLe rs

theorem sortStage_perm (rs : List EmployeeRecord) : (sortStage rs).Perm rs :=
  List.perm_insertionSort keyLe rs

/-! ## Pagination -/

theorem paginate_ok {α : Type} (xs : List α) (N O : Nat) (hN : 0 < N) :
    paginate (some O) (some N) xs = .ok ((xs.drop O).take N) := by
  obtain ⟨k, rfl⟩ : ∃ k, N = k + 1 := ⟨N - 1, by omega⟩
  rfl

theorem paginate_sublist {α : Type} (a b : Option Nat) (xs ys : List α)
    (h : paginate a b xs = .ok ys) : ys.Sublist xs := by
  cases a with
  | none => simp [paginate, skipStage, bind, Except.bind] at h
  | some O =>
    cases b with
    | none => simp [paginate, skipStage, limitStage, bind, Except.bind] at h
    | some N =>
      cases N with
      | zero => simp [paginate, skipStage, limitStage, bind, Except.bind] at h
      | succ k =>
        simp [paginate, skipStage, limitStage, bind, Except.bind] at h
        subst h
        exact (List.take_sublist _ _).trans (List.drop_sublist _ _)

theorem paginate_notNumber {α : Type} (a b : Option Nat) (xs : List α)
    (hb : notNumber b = true) : paginate a b xs = .error .invalidStage := by
  cases a with
  | none => rfl
  | some O =>
    cases b with
    | none => rfl
    | some N =>
      cases N with
      | zero => rfl
      | succ k => simp [notNumber] at hb

/-! ## Shape of the responses -/

theorem fetchEmployeeWith_unpaginated (sort : List EmployeeRecord → List EmployeeRecord)
    (s : Store) (q : PageQuery)
    (h₁ : notNumber q.itemsPerPage = true) (h₂ : notNumber q.itemOffset = true) :
    fetchEmployeeWith sort s q =
      { code := 200, status := "success", message := "Get employee successfully",
        data := .employees (employeeQueryWith sort s) } := by
  simp [fetchEmployeeWith, h₁, h₂]

theorem fetchEmployeeWith_paginated (sort : List EmployeeRecord → List EmployeeRecord)
    (s : Store) (N O : Nat) (hN : 0 < N) :
    fetchEmployeeWith sort s ⟨some N, some O⟩ =
      { code := 200, status := "success", message := "Get employee successfully",
        data := .page (((employeeQueryWith sort s).drop O).take N)
          (ceilDiv s.employees.length (some N)) } := by
  have hn : notNumber (some N) = false := by
    obtain ⟨k, rfl⟩ : ∃ k, N = k + 1 := ⟨N - 1, by omega⟩
    rfl
  simp [fetchEmployeeWith, hn, paginate_ok _ N O hN]

theorem fetchEmployeeWith_records_sublist (sort : List EmployeeRecord → List EmployeeRecord)
    (s : Store) (q : PageQuery) :
    (fetchEmployeeWith sort s q).records.Sublist (employeeQueryWith sort s) := by
  unfold fetchEmployeeWith
  simp only
  split
  · simp [Response.records]
  · split
    · rename_i results h
      simpa [Response.records] using paginate_sublist _ _ _ _ h
    · simp [Response.records, errorHandler]

theorem searchEmployeeWith_cases (sort : List EmployeeRecord → List EmployeeRecord)
    (regex : String → Option (String → Bool)) (s : Store) (q : SearchQuery) :
    (∃ error, searchEmployeeWith sort regex s q = errorHandler error) ∨
    ∃ keep results, compileCondition regex (buildCondition q) = .ok keep ∧
      paginate q.itemOffset q.itemsPerPage
        (sort (joinEmployees s (s.employees.filter keep))) = .ok results ∧
      searchEmployeeWith sort regex s q =
        { code := 200, status := "success", message := "Search employee successfully",
          data := .page results (ceilDiv (s.employees.filter keep).length q.itemsPerPage) } := by
  cases hc : compileCondition regex (buildCondition q) with
  | error err =>
    left
    exact ⟨err, by
      simp [searchEmployeeWith, searchEmployeeTryWith, countDocuments, hc, bind, Except.bind]⟩
  | ok keep =>
    cases hp : paginate q.itemOffset q.itemsPerPage
        (sort (joinEmployees s (s.employees.filter keep))) with
    | error err =>
      left
      refine ⟨err, ?_⟩
      simp [searchEmployeeWith, searchEmployeeTryWith, countDocuments, searchQueryWith,
        matchStage, hc, bind, Except.bind, pure, Except.pure, hp]
    | ok results =>
      right
      refine ⟨keep, results, rfl, hp, ?_⟩
      simp [searchEmployeeWith, searchEmployeeTryWith, countDocuments, searchQueryWith,
        matchStage, hc, bind, Except.bind, pure, Except.pure, hp]

theorem searchQueryWith_eq (sort : List EmployeeRecord → List EmployeeRecord)
    (regex : String → Option (String → Bool)) (s : Store)
    (c : QueryCondition) (keep : Employee → Bool) (hc : compileCondition regex c = .ok keep) :
    searchQueryWith sort regex s c = .ok (sort (joinEmployees s (s.employees.filter keep))) := by
  simp [searchQueryWith, matchStage, hc, bind, Except.bind, pure, Except.pure]

theorem searchQueryWith_ok (sort : List EmployeeRecord → List EmployeeRecord)
    (regex : String → Option (String → Bool)) (s : Store)
    (c : QueryCondition) (full : List EmployeeRecord)
    (h : searchQueryWith sort regex s c = .ok full) :
    ∃ keep, compileCondition regex c = .ok keep ∧
      full = sort (joinEmployees s (s.employees.filter keep)) := by
  cases hc : compileCondition regex c with
  | error err => simp [searchQueryWith, matchStage, hc, bind, Except.bind] at h
  | ok keep =>
    rw [searchQueryWith_eq sort regex s c keep hc] at h
    exact ⟨keep, rfl, by injection h with h; exact h.symm⟩

theorem fetchEmployee_unpaginated (s : Store) (q : PageQuery)
    (h₁ : notNumber q.itemsPerPage = true) (h₂ : notNumber q.itemOffset = true) :
    fetchEmployee s q =
      { code := 200, status := "success", message := "Get employee successfully",
        data := .employees (employeeQuery s) } :=
  fetchEmployeeWith_unpaginated sortStage s q h₁ h₂

theorem fetchEmployee_paginated (s : Store) (N O : Nat) (hN : 0 < N) :
    fetchEmployee s ⟨some N, some O⟩ =
      { code := 200, status := "success", message := "Get employee successfully",
        data := .page (((employeeQuery s).drop O).take N)
          (ceilDiv s.employees.length (some N)) } :=
  fetchEmployeeWith_paginated sortStage s N O hN

theorem fetchEmployee_records_sublist (s : Store) (q : PageQuery) :
    (fetchEmployee s q).records.Sublist (employeeQuery s) :=
  fetchEmployeeWith_records_sublist sortStage s q

theorem searchEmployee_cases (regex : String → Option (String → Bool)) (s : Store)
    (q : SearchQuery) :
    (∃ error, searchEmployee regex s q = errorHandler error) ∨
    ∃ keep results, compileCondition regex (buildCondition q) = .ok keep ∧
      paginate q.itemOffset q.itemsPerPage
        (sortStage (joinEmployees s (s.employees.filter keep))) = .ok results ∧
      searchEmployee regex s q =
        { code := 200, status := "success", message := "Search employee successfully",
          data := .page results (ceilDiv (s.employees.filter keep).length q.itemsPerPage) } :=
  searchEmployeeWith_cases sortStage regex s q

theorem searchQuery_eq (regex : String → Option (String → Bool)) (s : Store)
    (c : QueryCondition) (keep : Employee → Bool) (hc : compileCondition regex c = .ok keep) :
    searchQuery regex s c = .ok (sortStage (joinEmployees s (s.employees.filter keep))) :=
  searchQueryWith_eq sortStage regex s c keep hc

theorem searchQuery_ok (regex : String → Option (String → Bool)) (s : Store)
    (c : QueryCondition) (full : List EmployeeRecord) (h : searchQuery regex s c = .ok full) :
    ∃ keep, compileCondition regex c = .ok keep ∧
      full = sortStage (joinEmployees s (s.employees.filter keep)) :=
  searchQueryWith_ok sortStage regex s c full h

theorem errorHandler_records (error : StoreError) : (errorHandler error).records = [] := rfl

/-! ## Pages of the listing and of the search -/

theorem sortStage_admissible : Admissible sortStage :=
  fun rs => ⟨sortStage_perm rs, sortStage_sorted rs⟩

theorem sortStageRev_admissible : Admissible sortStageRev :=
  fun rs => ⟨(List.perm_insertionSort keyLe rs.reverse).trans (List.reverse_perm rs),
    List.sorted_insertionSort keyLe rs.reverse⟩

/-- Two outcomes of sorting the same records are the same list when no two of the records
have the same key. -/
theorem sort_unique_of_distinctKeys (l₁ l₂ inp : List EmployeeRecord)
    (h₁ : IsSortOf l₁ inp) (h₂ : IsSortOf l₂ inp) (hd : DistinctKeys inp) : l₁ = l₂ := by
  have hsymm : ∀ a b : EmployeeRecord, sortKey a ≠ sortKey b → sortKey b ≠ sortKey a :=
    fun _ _ h => h.symm
  have strict : ∀ l : List EmployeeRecord, IsSortOf l inp →
      l.Pairwise (fun a b => sortKey a < sortKey b) := by
    intro l hl
    have hdl : l.Pairwise (fun a b => sortKey a ≠ sortKey b) :=
      (hl.1.pairwise_iff (fun {a b} h => hsymm a b h)).2 hd
    have hle : l.Pairwise keyLe := hl.2
    exact (hle.and hdl).imp (fun {a b} h => lt_of_le_of_ne h.1 h.2)
  haveI : IsAntisymm EmployeeRecord (fun a b => sortKey a < sortKey b) :=
    ⟨fun _ _ h h' => absurd h' (lt_asymm h)⟩
  exact List.eq_of_perm_of_sorted (h₁.1.trans h₂.1.symm) (strict l₁ h₁) (strict l₂ h₂)

theorem matchStage_ok (regex : String → Option (String → Bool)) (c : QueryCondition)
    (es matched : List Employee) (h : matchStage regex c es = .ok matched) :
    ∃ keep, compileCondition regex c = .ok keep ∧ matched = es.filter keep := by
  cases hc : compileCondition regex c with
  | error err => simp [matchStage, hc, bind, Except.bind] at h
  | ok keep =>
    simp only [matchStage, hc, bind, Except.bind, pure, Except.pure] at h
    injection h with h
    exact ⟨keep, rfl, h.symm⟩

theorem searchEmployeeWith_paginated (sort : List EmployeeRecord → List EmployeeRecord)
    (regex : String → Option (String → Bool)) (s : Store) (q : SearchQuery) (N O : Nat)
    (keep : Employee → Bool) (hN : 0 < N) (hq : q.itemsPerPage = some N)
    (hO : q.itemOffset = some O) (hc : compileCondition regex (buildCondition q) = .ok keep) :
    searchEmployeeWith sort regex s q =
      { code := 200, status := "success", message := "Search employee successfully",
        data := .page (((sort (joinEmployees s (s.employees.filter keep))).drop O).take N)
          (ceilDiv (s.employees.filter keep).length (some N)) } := by
  have hp := paginate_ok (sort (joinEmployees s (s.employees.filter keep))) N O hN
  simp [searchEmployeeWith, searchEmployeeTryWith, countDocuments, searchQueryWith, matchStage,
    hc, bind, Except.bind, pure, Except.pure, hp, hq, hO]

/-- C1, as the code has it: with `itemsPerPage = N > 0` and `itemOffset = O`, and however the
store carries out the `$sort` stage, `fetchEmployee` answers 200 with the elements
`O .. O+N-1` of the joined list as the sort of that same execution orders it, an outcome of
sorting the joined list, and so does `searchEmployee` for every filter the store accepts;
neither returns more than `N` records. The page is the slice `O .. O+N-1` of the unpaginated
result, which is another execution, whenever no two joined records have the same key. -/
theorem page_is_slice_of_sorted_join (sort sort' : List EmployeeRecord → List EmployeeRecord)
    (regex : String → Option (String → Bool)) (s : Store)
    (name : Option String) (position_id department_id : Option RawId) (N O : Nat)
    (hN : 0 < N) (hsort : Admissible sort) (hsort' : Admissible sort') :
    ((fetchEmployeeWith sort s ⟨some N, some O⟩).code = 200 ∧
      (fetchEmployeeWith sort s ⟨some N, some O⟩).records
        = ((sort (joinEmployees s s.employees)).drop O).take N ∧
      IsSortOf (sort (joinEmployees s s.employees)) (joinEmployees s s.employees) ∧
      (fetchEmployeeWith sort s ⟨some N, some O⟩).records.length ≤ N ∧
      (DistinctKeys (joinEmployees s s.employees) →
        (fetchEmployeeWith sort s ⟨some N, some O⟩).records
          = ((fetchEmployeeWith sort' s ⟨none, none⟩).records.drop O).take N)) ∧
    ((searchEmployeeWith sort regex s
        ⟨name, position_id, department_id, some N, some O⟩).records.length ≤ N ∧
      ∀ matched, matchStage regex
          (buildCondition ⟨name, position_id, department_id, some N, some O⟩) s.employees
          = .ok matched →
        (searchEmployeeWith sort regex s
          ⟨name, position_id, department_id, some N, some O⟩).code = 200 ∧
        (searchEmployeeWith sort regex s
          ⟨name, position_id, department_id, some N, some O⟩).records
          = ((sort (joinEmployees s matched)).drop O).take N ∧
        IsSortOf (sort (joinEmployees s matched)) (joinEmployees s matched) ∧
        searchQueryWith sort' regex s
          (buildCondition ⟨name, position_id, department_id, some N, some O⟩)
          = .ok (sort' (joinEmployees s matched)) ∧
        (DistinctKeys (joinEmployees s matched) →
          (searchEmployeeWith sort regex s
            ⟨name, position_id, department_id, some N, some O⟩).records
            = ((sort' (joinEmployees s matched)).drop O).take N)) := by
  have hpage := fetchEmployeeWith_paginated sort s N O hN
  refine ⟨⟨?_, ?_, hsort _, ?_, ?_⟩, ?_, ?_⟩
  · rw [hpage]
  · rw [hpage]; rfl
  · rw [hpage]
    simp [Response.records, List.length_take]
  · intro hd
    rw [hpage, fetchEmployeeWith_unpaginated sort' s ⟨none, none⟩ rfl rfl]
    simp only [Response.records, employeeQueryWith]
    rw [sort_unique_of_distinctKeys _ _ _ (hsort _) (hsort' _) hd]
  · rcases searchEmployeeWith_cases sort regex s
        ⟨name, position_id, department_id, some N, some O⟩ with
      ⟨err, h⟩ | ⟨keep, results, _, hp, h⟩
    · rw [h]; simp [errorHandler_records]
    · rw [h]
      rw [paginate_ok _ N O hN] at hp
      injection hp with hp
      subst hp
      simp [Response.records, List.length_take]
  · intro matched hmatched
    obtain ⟨keep, hc, rfl⟩ := matchStage_ok regex _ _ _ hmatched
    have hres := searchEmployeeWith_paginated sort regex s
      ⟨name, position_id, department_id, some N, some O⟩ N O keep hN rfl rfl hc
    refine ⟨by rw [hres], by rw [hres]; rfl, hsort _, ?_, ?_⟩
    · exact searchQueryWith_eq sort' regex s _ keep hc
    · intro hd
      rw [hres]
      simp only [Response.records]
      rw [sort_unique_of_distinctKeys _ _ _ (hsort _) (hsort' _) hd]

/-- Witness of C1 on the sample store, whose joined records have three different keys: page
size 2, offset 1, the page sorted one way and the unpaginated list the other way. -/
theorem page_is_slice_of_sorted_join_witness :
    0 < 2 ∧ Admissible sortStage ∧ Admissible sortStageRev ∧
    DistinctKeys (joinEmployees sampleStore sampleStore.employees) ∧
    (fetchEmployeeWith sortStage sampleStore ⟨some 2, some 1⟩).records
      = ((fetchEmployeeWith sortStageRev sampleStore ⟨none, none⟩).records.drop 1).take 2 :=
  ⟨by decide, sortStage_admissible, sortStageRev_admissible, by decide,
    (page_is_slice_of_sorted_join sortStage sortStageRev containsMatcher sampleStore none none
      none 2 1 (by decide) sortStage_admissible sortStageRev_admissible).1.2.2.2.2
      (by decide)⟩

/-- C1 as stated fails where keys tie: the two employees of `tieStore` have one and the same
key, the store may put either first, and the page of one execution (one record from offset 0)
is not the first record of the unpaginated list of another; the same for the search. -/
theorem page_differs_from_unpaginated_on_ties :
    Admissible sortStage ∧ Admissible sortStageRev ∧
    (fetchEmployeeWith sortStage tieStore ⟨some 1, some 0⟩).records
      ≠ ((fetchEmployeeWith sortStageRev tieStore ⟨none, none⟩).records.drop 0).take 1 ∧
    (searchEmployeeWith sortStage containsMatcher tieStore
        ⟨none, none, none, some 1, some 0⟩).records.map EmployeeRecord._id = [100] ∧
    (searchQueryWith sortStageRev containsMatcher tieStore
        (buildCondition ⟨none, none, none, some 1, some 0⟩)).toOption.map
      (fun full => ((full.drop 0).take 1).map EmployeeRecord._id) = some [101] :=
  ⟨sortStage_admissible, sortStageRev_admissible, by decide, by decide, by decide⟩

theorem toList_eq_iff (a b : String) : a.toList = b.toList ↔ a = b := by
  constructor
  · intro h; exact String.ext h
  · intro h; rw [h]

/-- The order of the sort stage, taken on lists of characters, is the lexicographic order of
the three strings. -/
theorem keyLe_iff_tripleLe (a b : EmployeeRecord) : keyLe a b ↔ tripleLe a b := by
  unfold keyLe sortKey tripleLe
  rw [Prod.Lex.le_iff]
  simp only [ofLex_toLex]
  rw [Prod.Lex.le_iff]
  simp only [ofLex_toLex, toList_eq_iff, String.lt_iff_toList_lt, String.le_iff_toList_le]

theorem sortStage_pairwise (rs : List EmployeeRecord) : List.Pairwise tripleLe (sortStage rs) :=
  (sortStage_sorted rs).imp (fun {a b} h => (keyLe_iff_tripleLe a b).1 h)

/-- C2: in every response of `fetchEmployee` and of `searchEmployee`, whatever the store and
the request, any two consecutive records are in non-decreasing lexicographic order of
`(department_name, position_name, name)`. -/
theorem results_sorted (regex : String → Option (String → Bool)) (s : Store)
    (q : PageQuery) (q' : SearchQuery) :
    List.Chain' tripleLe (fetchEmployee s q).records ∧
    List.Chain' tripleLe (searchEmployee regex s q').records := by
  constructor
  · exact ((sortStage_pairwise _).sublist (fetchEmployee_records_sublist s q)).chain'
  · rcases searchEmployee_cases regex s q' with ⟨err, h⟩ | ⟨keep, results, _, hp, h⟩
    · rw [h]; simp [errorHandler_records]
    · rw [h]
      exact ((sortStage_pairwise _).sublist (paginate_sublist _ _ _ _ hp)).chain'

/-! ## The join -/

theorem filter_eq_find_toList {α : Type} (idOf : α → ObjectId) (k : ObjectId) (l : List α)
    (h : (l.map idOf).Nodup) :
    l.filter (fun x => idOf x == k) = (l.find? (fun x => idOf x == k)).toList := by
  induction l with
  | nil => rfl
  | cons x xs ih =>
    rw [List.map_cons, List.nodup_cons] at h
    by_cases hx : idOf x = k
    · have hnone : xs.filter (fun y => idOf y == k) = [] := by
        rw [List.filter_eq_nil_iff]
        intro y hy hyk
        apply h.1
        have : idOf y = k := by simpa using hyk
        rw [hx, ← this]
        exact List.mem_map_of_mem idOf hy
      simp [List.filter_cons, List.find?_cons, hx, hnone]
    · simp [List.filter_cons, List.find?_cons, hx, ih h.2]

theorem find_of_mem_nodup {α : Type} (idOf : α → ObjectId) (k : ObjectId) (l : List α)
    (x : α) (h : (l.map idOf).Nodup) (hx : x ∈ l) (hk : idOf x = k) :
    l.find? (fun y => idOf y == k) = some x := by
  induction l with
  | nil => simp at hx
  | cons y ys ih =>
    rw [List.map_cons, List.nodup_cons] at h
    rcases List.mem_cons.1 hx with rfl | hmem
    · simp [List.find?_cons, hk]
    · have hy : idOf y ≠ k := by
        intro hyk
        apply h.1
        rw [hyk, ← hk]
        exact List.mem_map_of_mem idOf hmem
      simp [List.find?_cons, hy, ih h.2 hmem]

theorem joinEmployees_eq_filterMap (s : Store) (es : List Employee)
    (hd : (s.departments.map Department._id).Nodup)
    (hp : (s.positions.map Position._id).Nodup) :
    joinEmployees s es = es.filterMap (resolve s) := by
  induction es with
  | nil => rfl
  | cons e es ih =>
    have hcons : joinEmployees s (e :: es) =
        ((lookupDepartment s e).flatMap (fun d =>
          (lookupPosition s e).map (fun p => project e d p))) ++ joinEmployees s es := by
      simp [joinEmployees, List.flatMap_cons]
    rw [hcons, ih, List.filterMap_cons]
    unfold lookupDepartment lookupPosition resolve
    rw [filter_eq_find_toList Department._id e.department_id s.departments hd,
      filter_eq_find_toList Position._id e.position_id s.positions hp]
    cases s.departments.find? (fun d => d._id == e.department_id) with
    | none => simp
    | some d =>
      cases s.positions.find? (fun p => p._id == e.position_id) with
      | none => simp
      | some p => simp

theorem mem_joinEmployees (s : Store) (es : List Employee) (r : EmployeeRecord)
    (h : r ∈ joinEmployees s es) :
    ∃ e ∈ es, ∃ d ∈ s.departments, ∃ p ∈ s.positions,
      d._id = e.department_id ∧ p._id = e.position_id ∧ r = project e d p := by
  simp only [joinEmployees, lookupDepartment, lookupPosition, List.mem_flatMap, List.mem_filter,
    List.mem_map, beq_iff_eq] at h
  obtain ⟨e, he, d, ⟨hd, hde⟩, p, ⟨hp, hpe⟩, rfl⟩ := h
  exact ⟨e, he, d, hd, p, hp, hde, hpe, rfl⟩

/-- C3: when department identifiers and position identifiers are unique, the unpaginated
answer of `fetchEmployee` is 200 and its records are, up to order, one record for each
employee both of whose references resolve and none for the others; the record joins the
employee to the department and the position it references, and carries their names. -/
theorem join_is_exclusionary (s : Store)
    (hd : (s.departments.map Department._id).Nodup)
    (hp : (s.positions.map Position._id).Nodup) :
    (fetchEmployee s ⟨none, none⟩).code = 200 ∧
    (fetchEmployee s ⟨none, none⟩).records.Perm (s.employees.filterMap (resolve s)) ∧
    (∀ e ∈ s.employees,
      ((∀ d ∈ s.departments, d._id ≠ e.department_id) ∨
        (∀ p ∈ s.positions, p._id ≠ e.position_id)) → resolve s e = none) ∧
    (∀ e ∈ s.employees, ∀ d ∈ s.departments, ∀ p ∈ s.positions,
      d._id = e.department_id → p._id = e.position_id → resolve s e = some (project e d p)) ∧
    (∀ r ∈ (fetchEmployee s ⟨none, none⟩).records,
      ∃ e ∈ s.employees, ∃ d ∈ s.departments, ∃ p ∈ s.positions,
        d._id = e.department_id ∧ p._id = e.position_id ∧
        r.department_name = d.name ∧ r.position_name = p.name ∧ r = project e d p) := by
  have hrec : (fetchEmployee s ⟨none, none⟩).records = employeeQuery s := by
    rw [fetchEmployee_unpaginated s ⟨none, none⟩ rfl rfl]; rfl
  refine ⟨?_, ?_, ?_, ?_, ?_⟩
  · rw [fetchEmployee_unpaginated s ⟨none, none⟩ rfl rfl]
  · rw [hrec, employeeQuery, ← joinEmployees_eq_filterMap s s.employees hd hp]
    exact sortStage_perm _
  · intro e _ h
    unfold resolve
    rcases h with h | h
    · have : s.departments.find? (fun d => d._id == e.department_id) = none := by
        rw [List.find?_eq_none]
        intro d hd; simpa using h d hd
      rw [this]
    · have : s.positions.find? (fun p => p._id == e.position_id) = none := by
        rw [List.find?_eq_none]
        intro p hp; simpa using h p hp
      rw [this]
      cases s.departments.find? (fun d => d._id == e.department_id) <;> rfl
  · intro e _ d hdm p hpm hde hpe
    unfold resolve
    rw [find_of_mem_nodup Department._id e.department_id s.departments d hd hdm hde,
      find_of_mem_nodup Position._id e.position_id s.positions p hp hpm hpe]
  · intro r hr
    rw [hrec, employeeQuery] at hr
    have hr' := (sortStage_perm _).mem_iff.1 hr
    obtain ⟨e, he, d, hdm, p, hpm, hde, hpe, rfl⟩ := mem_joinEmployees s _ r hr'
    exact ⟨e, he, d, hdm, p, hpm, hde, hpe, rfl, rfl, rfl⟩

/-- Witness of C3 on the sample store, whose identifiers are unique. -/
theorem join_is_exclusionary_witness :
    (sampleStore.departments.map Department._id).Nodup ∧
    (sampleStore.positions.map Position._id).Nodup ∧
    (fetchEmployee sampleStore ⟨none, none⟩).records.Perm
      (sampleStore.employees.filterMap (resolve sampleStore)) :=
  ⟨by decide, by decide, (join_is_exclusionary sampleStore (by decide) (by decide)).2.1⟩

/-! ## The filter of the search -/

theorem compileCondition_ok (regex : String → Option (String → Bool)) (c : QueryCondition)
    (keep : Employee → Bool) (h : compileCondition regex c = .ok keep) :
    ∃ nameOk positionOk departmentOk,
      compileName regex c.name = .ok nameOk ∧
      compileId c.position_id = .ok positionOk ∧
      compileId c.department_id = .ok departmentOk ∧
      keep = fun e =>
        nameOk e.name && positionOk e.position_id && departmentOk e.department_id := by
  unfold compileCondition at h
  cases hn : compileName regex c.name with
  | error err => simp [hn, bind, Except.bind] at h
  | ok nameOk =>
    cases hp : compileId c.position_id with
    | error err => simp [hn, hp, bind, Except.bind] at h
    | ok positionOk =>
      cases hd : compileId c.department_id with
      | error err => simp [hn, hp, hd, bind, Except.bind] at h
      | ok departmentOk =>
        simp only [hn, hp, hd, bind, Except.bind, pure, Except.pure] at h
        injection h with h
        exact ⟨nameOk, positionOk, departmentOk, rfl, rfl, rfl, h.symm⟩

theorem compileId_wellFormed (id : ObjectId) (f : ObjectId → Bool)
    (h : compileId (some (.wellFormed id)) = .ok f) : f = fun x => x == id := by
  simp only [compileId, castId] at h
  injection h with h
  exact h.symm

theorem compileId_malformed (f : ObjectId → Bool) :
    compileId (some .malformed) ≠ .ok f := by
  simp [compileId, castId]

theorem mem_searchEmployee_records (regex : String → Option (String → Bool)) (s : Store)
    (q : SearchQuery) (r : EmployeeRecord) (hr : r ∈ (searchEmployee regex s q).records) :
    ∃ keep, compileCondition regex (buildCondition q) = .ok keep ∧
      ∃ e ∈ s.employees, keep e = true ∧ ∃ d ∈ s.departments, ∃ p ∈ s.positions,
        d._id = e.department_id ∧ p._id = e.position_id ∧ r = project e d p := by
  rcases searchEmployee_cases regex s q with ⟨err, h⟩ | ⟨keep, results, hc, hp, h⟩
  · rw [h, errorHandler_records] at hr
    simp at hr
  · rw [h] at hr
    have hr₁ : r ∈ sortStage (joinEmployees s (s.employees.filter keep)) :=
      (paginate_sublist _ _ _ _ hp).subset hr
    have hr₂ := (sortStage_perm _).mem_iff.1 hr₁
    obtain ⟨e, he, d, hdm, p, hpm, hde, hpe, rfl⟩ := mem_joinEmployees s _ r hr₂
    rw [List.mem_filter] at he
    exact ⟨keep, hc, e, he.1, he.2, d, hdm, p, hpm, hde, hpe, rfl⟩

/-- C4: every record `searchEmployee` returns carries, when the filter has a `department_id`,
the name of a department of the store with that identifier and, when the filter has a
`position_id`, the name of a position of the store with that identifier; a filter whose
identifier is no identifier returns no record at all. -/
theorem search_names_match_filter (regex : String → Option (String → Bool)) (s : Store)
    (q : SearchQuery) (r : EmployeeRecord) (hr : r ∈ (searchEmployee regex s q).records) :
    (∀ id, q.department_id = some (.wellFormed id) →
      ∃ d ∈ s.departments, d._id = id ∧ r.department_name = d.name) ∧
    (∀ id, q.position_id = some (.wellFormed id) →
      ∃ p ∈ s.positions, p._id = id ∧ r.position_name = p.name) ∧
    q.department_id ≠ some .malformed ∧ q.position_id ≠ some .malformed := by
  obtain ⟨keep, hc, e, _, hke, d, hdm, p, hpm, hde, hpe, rfl⟩ :=
    mem_searchEmployee_records regex s q r hr
  obtain ⟨nameOk, positionOk, departmentOk, _, hpo, hdo, rfl⟩ :=
    compileCondition_ok regex _ keep hc
  simp only [Bool.and_eq_true] at hke
  have hcp : (buildCondition q).position_id = q.position_id := rfl
  have hcd : (buildCondition q).department_id = q.department_id := rfl
  rw [hcp] at hpo
  rw [hcd] at hdo
  refine ⟨?_, ?_, ?_, ?_⟩
  · intro id hid
    rw [hid] at hdo
    have := compileId_wellFormed id departmentOk hdo
    subst this
    refine ⟨d, hdm, ?_, rfl⟩
    rw [hde]; simpa using hke.2
  · intro id hid
    rw [hid] at hpo
    have := compileId_wellFormed id positionOk hpo
    subst this
    refine ⟨p, hpm, ?_, rfl⟩
    rw [hpe]; simpa using hke.1.2
  · intro hid
    rw [hid] at hdo
    exact compileId_malformed _ hdo
  · intro hid
    rw [hid] at hpo
    exact compileId_malformed _ hpo

/-- Witness of C4: the sample search returns the record of employee 102, which carries the
name of department 1. -/
theorem search_names_match_filter_witness :
    sampleRecord ∈ (searchEmployee containsMatcher sampleStore sampleSearch).records ∧
    ∃ d ∈ sampleStore.departments, d._id = 1 ∧ sampleRecord.department_name = d.name :=
  ⟨by decide,
    (search_names_match_filter containsMatcher sampleStore sampleSearch sampleRecord
      (by decide)).1 1 rfl⟩

/-! ## The number of pages -/

theorem ceilDiv_eq_ceil (M N : Nat) (hN : 0 < N) :
    ceilDiv M (some N) = some ⌈(M : ℚ) / (N : ℚ)⌉₊ := by
  obtain ⟨k, rfl⟩ : ∃ k, N = k + 1 := ⟨N - 1, by omega⟩
  simp only [ceilDiv, Option.some.injEq]
  have hpos : (0 : ℚ) < ((k + 1 : ℕ) : ℚ) := by exact_mod_cast Nat.succ_pos k
  apply le_antisymm
  · by_contra h
    push_neg at h
    have h₁ : (M : ℚ) / ((k + 1 : ℕ) : ℚ) ≤ (⌈(M : ℚ) / ((k + 1 : ℕ) : ℚ)⌉₊ : ℚ) := Nat.le_ceil _
    rw [div_le_iff₀ hpos] at h₁
    have h₂ : M ≤ ⌈(M : ℚ) / ((k + 1 : ℕ) : ℚ)⌉₊ * (k + 1) := by exact_mod_cast h₁
    have h₃ : (⌈(M : ℚ) / ((k + 1 : ℕ) : ℚ)⌉₊ + 1) * (k + 1) ≤ M + k :=
      (Nat.le_div_iff_mul_le (Nat.succ_pos k)).1 h
    nlinarith
  · apply Nat.ceil_le.2
    rw [div_le_iff₀ hpos]
    have h₁ := Nat.div_add_mod (M + k) (k + 1)
    have h₂ := Nat.mod_lt (M + k) (Nat.succ_pos k)
    have h₃ : M ≤ (M + k) / (k + 1) * (k + 1) := by nlinarith
    exact_mod_cast h₃

theorem compileName_apply (regex : String → Option (String → Bool)) (name : Option String)
    (f : String → Bool) (x : String)
    (h : compileName regex (buildCondition ⟨name, none, none, none, none⟩).name = .ok f) :
    f x = nameSatisfies regex name x := by
  cases name with
  | none =>
    simp only [buildCondition, compileName] at h
    injection h with h
    rw [← h]; rfl
  | some n =>
    by_cases hne : n = ""
    · simp only [buildCondition, hne, if_true, compileName] at h
      injection h with h
      rw [← h]; simp [nameSatisfies, hne]
    · simp only [buildCondition, hne, if_false, compileName] at h
      cases hr : regex n with
      | none => simp [hr] at h
      | some m =>
        simp only [hr] at h
        injection h with h
        rw [← h]; simp [nameSatisfies, hne, hr]

theorem compileId_apply (raw : Option RawId) (f : ObjectId → Bool) (x : ObjectId)
    (h : compileId raw = .ok f) : f x = idSatisfies raw x := by
  cases raw with
  | none =>
    simp only [compileId] at h
    injection h with h
    rw [← h]; rfl
  | some r =>
    cases r with
    | malformed => exact absurd h (compileId_malformed f)
    | wellFormed id => rw [compileId_wellFormed id f h]; rfl

theorem compileCondition_eq_satisfiesFilter (regex : String → Option (String → Bool))
    (q : SearchQuery) (keep : Employee → Bool)
    (h : compileCondition regex (buildCondition q) = .ok keep) :
    keep = satisfiesFilter regex q := by
  obtain ⟨nameOk, positionOk, departmentOk, hn, hp, hd, rfl⟩ :=
    compileCondition_ok regex _ keep h
  funext e
  have hp' : compileId q.position_id = .ok positionOk := hp
  have hd' : compileId q.department_id = .ok departmentOk := hd
  have hn' : compileName regex (buildCondition ⟨q.name, none, none, none, none⟩).name
      = .ok nameOk := hn
  simp only [satisfiesFilter, compileName_apply regex q.name nameOk e.name hn',
    compileId_apply q.position_id positionOk e.position_id hp',
    compileId_apply q.department_id departmentOk e.department_id hd']

/-- C5: for a page size `N > 0`, a `totalPage` that `searchEmployee` returns is
`ceil(M / N)`, with `M` the number of employees of the store that satisfy the filter, not the
number of all employees; and `searchEmployee` does return it, with code 200, whenever the
store accepts the filter and an offset is given. -/
theorem search_totalPage (regex : String → Option (String → Bool)) (s : Store)
    (q : SearchQuery) (N : Nat) (hN : 0 < N) (hq : q.itemsPerPage = some N) :
    (∀ tp, (searchEmployee regex s q).totalPage = some tp →
      tp = some ⌈((s.employees.filter (satisfiesFilter regex q)).length : ℚ) / (N : ℚ)⌉₊) ∧
    (∀ O, q.itemOffset = some O → (compileCondition regex (buildCondition q)).isOk = true →
      (searchEmployee regex s q).code = 200 ∧
      (searchEmployee regex s q).totalPage =
        some (some ⌈((s.employees.filter (satisfiesFilter regex q)).length : ℚ) / (N : ℚ)⌉₊)) := by
  constructor
  · intro tp htp
    rcases searchEmployee_cases regex s q with ⟨err, h⟩ | ⟨keep, results, hc, _, h⟩
    · rw [h] at htp
      simp [errorHandler, Response.totalPage] at htp
    · rw [h] at htp
      simp only [Response.totalPage, Option.some.injEq] at htp
      rw [← htp, hq, compileCondition_eq_satisfiesFilter regex q keep hc]
      exact ceilDiv_eq_ceil _ N hN
  · intro O hO hok
    rcases searchEmployee_cases regex s q with ⟨err, h⟩ | ⟨keep, results, hc, _, h⟩
    · exfalso
      cases hc : compileCondition regex (buildCondition q) with
      | error e => simp [hc, Except.isOk, Except.toBool] at hok
      | ok keep =>
        have hp := paginate_ok (sortStage (joinEmployees s (s.employees.filter keep))) N O hN
        simp [searchEmployee, searchEmployeeWith, searchEmployeeTryWith, countDocuments,
          searchQueryWith, matchStage, hc, bind, Except.bind, pure, Except.pure, hp, hq, hO,
          errorHandler] at h
    · rw [h]
      refine ⟨rfl, ?_⟩
      simp only [Response.totalPage]
      rw [hq, compileCondition_eq_satisfiesFilter regex q keep hc, ceilDiv_eq_ceil _ N hN]

/-- Witness of C5: the sample search, five per page from offset 0. -/
theorem search_totalPage_witness :
    0 < 5 ∧ sampleSearch.itemsPerPage = some 5 ∧
    (searchEmployee containsMatcher sampleStore sampleSearch).totalPage =
      some (some ⌈((sampleStore.employees.filter
        (satisfiesFilter containsMatcher sampleSearch)).length : ℚ) / ((5 : ℕ) : ℚ)⌉₊) :=
  ⟨by decide, rfl,
    ((search_totalPage containsMatcher sampleStore sampleSearch 5 (by decide) rfl).2 0 rfl
      rfl).2⟩

/-! ## Search without pagination -/

/-- Without a positive `itemsPerPage`, `searchEmployee` has no branch that skips the two
pagination stages: the store rejects the aggregation and the handler answers through
`errorHandler`, whatever the store and the filter. -/
theorem searchEmployee_notNumber (regex : String → Option (String → Bool)) (s : Store)
    (q : SearchQuery) (h : notNumber q.itemsPerPage = true) :
    ∃ error, searchEmployee regex s q = errorHandler error := by
  rcases searchEmployee_cases regex s q with ⟨err, h'⟩ | ⟨keep, results, _, hp, _⟩
  · exact ⟨err, h'⟩
  · rw [paginate_notNumber _ _ _ h] at hp
    cases hp

/-- C6, on the sample store: `fetchEmployee` without pagination
parameters answers 200 with the three joined records, while `searchEmployee` with the
parameters absent, or both zero, answers 500 with no record. -/
theorem search_unpaginated_is_error :
    (fetchEmployee sampleStore ⟨none, none⟩).code = 200 ∧
    (fetchEmployee sampleStore ⟨none, none⟩).records.length = 3 ∧
    (fetchEmployee sampleStore ⟨some 0, some 0⟩).records.length = 3 ∧
    (searchEmployee containsMatcher sampleStore searchAll).code = 500 ∧
    (searchEmployee containsMatcher sampleStore searchAll).status = "error" ∧
    (searchEmployee containsMatcher sampleStore searchAll).records = [] ∧
    (searchEmployee containsMatcher sampleStore searchAllZero).code = 500 ∧
    (searchEmployee containsMatcher sampleStore searchAllZero).records = [] := by
  decide

/-! ## Departments -/

/-- C7: a department name that passes validation and is the name of no department of the
store is created with code 201, and the listing that follows answers 200 with a list in which
exactly one department has that name and every earlier department is still present. -/
theorem create_then_list (s : Store) (fresh : ObjectId) (name : String)
    (hv : validateDepartment (some name) = true)
    (hnew : ∀ d ∈ s.departments, d.name ≠ name) :
    (addDepartment s fresh (some name)).1.code = 201 ∧
    (fetchDepartment (addDepartment s fresh (some name)).2).code = 200 ∧
    ((fetchDepartment (addDepartment s fresh (some name)).2).departments.filter
      (fun d => d.name = name)).length = 1 ∧
    ∀ d ∈ s.departments,
      d ∈ (fetchDepartment (addDepartment s fresh (some name)).2).departments := by
  have hfind : s.departments.find? (fun d => d.name == name) = none := by
    rw [List.find?_eq_none]
    intro d hd
    simpa using hnew d hd
  have hadd : addDepartment s fresh (some name) =
      ({ code := 201, status := "success", message := "Department created successfully",
         data := .empty },
       { s with departments := s.departments ++ [{ _id := fresh, name := name }] }) := by
    simp [addDepartment, hv, hfind]
  have hfetch : fetchDepartment (addDepartment s fresh (some name)).2 =
      { code := 200, status := "success", message := "Get department successfully",
        data := .departments (s.departments ++ [{ _id := fresh, name := name }]) } := by
    rw [hadd]
    simp [fetchDepartment]
  have hold : s.departments.filter (fun d => d.name = name) = [] := by
    rw [List.filter_eq_nil_iff]
    intro d hd
    simpa using hnew d hd
  refine ⟨by rw [hadd], by rw [hfetch], ?_, ?_⟩
  · rw [hfetch]
    simp [Response.departments, List.filter_append, hold]
  · intro d hd
    rw [hfetch]
    simp [Response.departments, hd]

/-- Witness of C7: the name "Sales" is new to the sample store. -/
theorem create_then_list_witness :
    validateDepartment (some "Sales") = true ∧
    (∀ d ∈ sampleStore.departments, d.name ≠ "Sales") ∧
    (addDepartment sampleStore 3 (some "Sales")).1.code = 201 ∧
    ((fetchDepartment (addDepartment sampleStore 3 (some "Sales")).2).departments.filter
      (fun d => d.name = "Sales")).length = 1 :=
  ⟨by decide, by decide,
    (create_then_list sampleStore 3 "Sales" (by decide) (by decide)).1,
    (create_then_list sampleStore 3 "Sales" (by decide) (by decide)).2.2.1⟩

/-- C8: a valid request whose name is, character for character, the name of a department of
the store is answered 409 with status "error", not 201, and the store is left as it was. -/
theorem duplicate_department_conflict (s : Store) (fresh : ObjectId) (name : String)
    (hv : validateDepartment (some name) = true)
    (hex : ∃ d ∈ s.departments, d.name = name) :
    (addDepartment s fresh (some name)).1.code = 409 ∧
    (addDepartment s fresh (some name)).1.status = "error" ∧
    (addDepartment s fresh (some name)).1.code ≠ 201 ∧
    (addDepartment s fresh (some name)).2 = s := by
  obtain ⟨d, hd, hname⟩ := hex
  have hsome : (s.departments.find? (fun d => d.name == name)).isSome = true := by
    rw [List.find?_isSome]
    exact ⟨d, hd, by simpa using hname⟩
  obtain ⟨d', hd'⟩ := Option.isSome_iff_exists.1 hsome
  have hadd : addDepartment s fresh (some name) =
      ({ code := 409, status := "error", message := "Department already exists",
         data := .empty }, s) := by
    simp [addDepartment, hv, hd']
  rw [hadd]
  exact ⟨rfl, rfl, by simp, rfl⟩

/-- Witness of C8: the sample store has a department "Engineering". -/
theorem duplicate_department_conflict_witness :
    validateDepartment (some "Engineering") = true ∧
    (∃ d ∈ sampleStore.departments, d.name = "Engineering") ∧
    (addDepartment sampleStore 3 (some "Engineering")).1.code = 409 ∧
    (addDepartment sampleStore 3 (some "Engineering")).2 = sampleStore :=
  ⟨by decide, by decide,
    (duplicate_department_conflict sampleStore 3 "Engineering" (by decide) (by decide)).1,
    (duplicate_department_conflict sampleStore 3 "Engineering" (by decide) (by decide)).2.2.2⟩

/-! ## Deletion -/

theorem findByIdAndDelete_missing {α : Type} (idOf : α → ObjectId) (xs : List α)
    (id : ObjectId) (h : ∀ x ∈ xs, idOf x ≠ id) :
    findByIdAndDelete idOf xs (.wellFormed id) = .ok (none, xs) := by
  have hfind : xs.find? (fun x => idOf x == id) = none := by
    rw [List.find?_eq_none]
    intro x hx
    simpa using h x hx
  simp [findByIdAndDelete, castId, hfind, bind, Except.bind, pure, Except.pure]

/-- C9: for an identifier that is well formed and is the identifier of no document of the
collection, `deleteEmployee`, `deleteDepartment` and `deletePosition` each answer 404 with
status "error", never 200, and leave the store as it was. -/
theorem delete_missing_not_found (s : Store) (id : ObjectId) :
    ((∀ e ∈ s.employees, e._id ≠ id) →
      (deleteEmployee s (.wellFormed id)).1.code = 404 ∧
      (deleteEmployee s (.wellFormed id)).1.status = "error" ∧
      (deleteEmployee s (.wellFormed id)).2 = s) ∧
    ((∀ d ∈ s.departments, d._id ≠ id) →
      (deleteDepartment s (.wellFormed id)).1.code = 404 ∧
      (deleteDepartment s (.wellFormed id)).1.status = "error" ∧
      (deleteDepartment s (.wellFormed id)).2 = s) ∧
    ((∀ p ∈ s.positions, p._id ≠ id) →
      (deletePosition s (.wellFormed id)).1.code = 404 ∧
      (deletePosition s (.wellFormed id)).1.status = "error" ∧
      (deletePosition s (.wellFormed id)).2 = s) := by
  refine ⟨?_, ?_, ?_⟩
  · intro h
    simp [deleteEmployee, findByIdAndDelete_missing Employee._id s.employees id h]
  · intro h
    simp [deleteDepartment, findByIdAndDelete_missing Department._id s.departments id h]
  · intro h
    simp [deletePosition, findByIdAndDelete_missing Position._id s.positions id h]

/-- Witness of C9: no document of the sample store has identifier 999. -/
theorem delete_missing_not_found_witness :
    ((∀ e ∈ sampleStore.employees, e._id ≠ 999) ∧
      (deleteEmployee sampleStore (.wellFormed 999)).1.code = 404 ∧
      (deleteEmployee sampleStore (.wellFormed 999)).1.status = "error" ∧
      (deleteEmployee sampleStore (.wellFormed 999)).2 = sampleStore) ∧
    ((∀ d ∈ sampleStore.departments, d._id ≠ 999) ∧
      (deleteDepartment sampleStore (.wellFormed 999)).1.code = 404 ∧
      (deleteDepartment sampleStore (.wellFormed 999)).1.status = "error" ∧
      (deleteDepartment sampleStore (.wellFormed 999)).2 = sampleStore) ∧
    ((∀ p ∈ sampleStore.positions, p._id ≠ 999) ∧
      (deletePosition sampleStore (.wellFormed 999)).1.code = 404 ∧
      (deletePosition sampleStore (.wellFormed 999)).1.status = "error" ∧
      (deletePosition sampleStore (.wellFormed 999)).2 = sampleStore) :=
  ⟨⟨by decide, (delete_missing_not_found sampleStore 999).1 (by decide)⟩,
    ⟨by decide, (delete_missing_not_found sampleStore 999).2.1 (by decide)⟩,
    ⟨by decide, (delete_missing_not_found sampleStore 999).2.2 (by decide)⟩⟩

/-! ## Bulk import -/

/-- The response of `uploadFile` does not depend on the rows: it is chosen before the loop
over the rows has run. -/
theorem uploadFile_response (s : Store) (employeeData : List Employee) :
    (uploadFile s employeeData).1 =
      { code := 200, status := "success", message := "Created employee successfully",
        data := .empty } := by
  simp [uploadFile]

/-- C10, on the sample store: the second of the three rows has the email of an employee of
the sample store; the loop stops there with `hasError` set, having stored the first row and
neither of the other two, and the response sent is 200 with status "success", not 409. -/
theorem upload_duplicate_reports_success :
    (∃ e ∈ sampleStore.employees, ∃ row ∈ sampleImport, row.email = e.email) ∧
    (importLoop sampleStore sampleImport).1 = true ∧
    (uploadFile sampleStore sampleImport).2.employees
      = sampleStore.employees ++ sampleImport.take 1 ∧
    (uploadFile sampleStore sampleImport).1.code = 200 ∧
    (uploadFile sampleStore sampleImport).1.status = "success" ∧
    (uploadFile sampleStore sampleImport).1.code ≠ 409 := by
  decide

/-! ## Uniqueness -/

theorem nodup_map_append_singleton {α β : Type} [DecidableEq β] (f : α → β) (l : List α)
    (y : α) (h : (l.map f).Nodup) (hy : l.find? (fun x => f x == f y) = none) :
    ((l ++ [y]).map f).Nodup := by
  rw [List.find?_eq_none] at hy
  rw [List.map_append, List.nodup_append]
  refine ⟨h, by simp, ?_⟩
  intro a ha hb
  simp only [List.map_cons, List.map_nil, List.mem_singleton] at hb
  obtain ⟨x, hx, rfl⟩ := List.mem_map.1 ha
  exact hy x hx (by simp [hb])

theorem addDepartment_unique (s : Store) (fresh : ObjectId) (department : Option String)
    (h : UniqueKeys s) : UniqueKeys (addDepartment s fresh department).2 := by
  cases department with
  | none => simpa [addDepartment, validateDepartment] using h
  | some name =>
    by_cases hv : validateDepartment (some name) = true
    · cases hfind : s.departments.find? (fun d => d.name == name) with
      | some d => simpa [addDepartment, hv, hfind] using h
      | none =>
        have hnew := nodup_map_append_singleton Department.name s.departments ⟨fresh, name⟩
          h.2.1 hfind
        simp only [addDepartment, hv, hfind]
        exact ⟨h.1, hnew, h.2.2⟩
    · simpa [addDepartment, hv] using h

theorem addEmployee_unique (validate : EmployeeBody → Bool) (s : Store) (fresh : ObjectId)
    (body : EmployeeBody) (h : UniqueKeys s) :
    UniqueKeys (addEmployee validate s fresh body).2 := by
  by_cases hv : validate body = true
  · cases hfind : s.employees.find? (fun e => e.email == body.email) with
    | some e => simpa [addEmployee, hv, hfind] using h
    | none =>
      have hnew := nodup_map_append_singleton Employee.email s.employees
        (body.toEmployee fresh) h.1 hfind
      simp only [addEmployee, hv, hfind]
      exact ⟨hnew, h.2⟩
  · simpa [addEmployee, hv] using h

theorem addPosition_unique (s : Store) (fresh : ObjectId) (position : Option String)
    (department_id : Option RawId) (h : UniqueKeys s) :
    UniqueKeys (addPosition s fresh position department_id).2 := by
  unfold addPosition
  split
  · rename_i name raw _
    cases hfind : s.positions.find? (fun p => p.name == name) with
    | some p => exact h
    | none =>
      cases hdep : findById Department._id s.departments raw with
      | error err => exact h
      | ok found =>
        cases found with
        | none => exact h
        | some department =>
          exact ⟨h.1, h.2.1, nodup_map_append_singleton Position.name s.positions
            ⟨fresh, name, department._id⟩ h.2.2 hfind⟩
  · exact h

theorem findByIdAndDelete_sublist {α : Type} (idOf : α → ObjectId) (xs : List α) (_id : RawId)
    (found : Option α) (rest : List α)
    (h : findByIdAndDelete idOf xs _id = .ok (found, rest)) : rest.Sublist xs := by
  cases _id with
  | malformed => simp [findByIdAndDelete, castId, bind, Except.bind] at h
  | wellFormed id =>
    simp only [findByIdAndDelete, castId, bind, Except.bind] at h
    split at h
    · simp only [pure, Except.pure, Except.ok.injEq, Prod.mk.injEq] at h
      rw [← h.2]
    · simp only [pure, Except.pure, Except.ok.injEq, Prod.mk.injEq] at h
      rw [← h.2]
      exact List.eraseP_sublist _

theorem deleteEmployee_unique (s : Store) (_id : RawId) (h : UniqueKeys s) :
    UniqueKeys (deleteEmployee s _id).2 := by
  unfold deleteEmployee
  split
  · exact h
  · rename_i found rest hdel
    exact ⟨h.1.sublist ((findByIdAndDelete_sublist _ _ _ _ _ hdel).map _), h.2⟩
  · exact h

theorem deleteDepartment_unique (s : Store) (_id : RawId) (h : UniqueKeys s) :
    UniqueKeys (deleteDepartment s _id).2 := by
  unfold deleteDepartment
  split
  · exact h
  · rename_i found rest hdel
    exact ⟨h.1, h.2.1.sublist ((findByIdAndDelete_sublist _ _ _ _ _ hdel).map _), h.2.2⟩
  · exact h

theorem deletePosition_unique (s : Store) (_id : RawId) (h : UniqueKeys s) :
    UniqueKeys (deletePosition s _id).2 := by
  unfold deletePosition
  split
  · exact h
  · rename_i found rest hdel
    exact ⟨h.1, h.2.1, h.2.2.sublist ((findByIdAndDelete_sublist _ _ _ _ _ hdel).map _)⟩
  · exact h

theorem importLoop_unique (s : Store) (employeeData : List Employee) (h : UniqueKeys s) :
    UniqueKeys (importLoop s employeeData).2 := by
  induction employeeData generalizing s with
  | nil => exact h
  | cons item rest ih =>
    cases hfind : s.employees.find? (fun e => e.email == item.email) with
    | some e => simpa [importLoop, hfind] using h
    | none =>
      have hnew := nodup_map_append_singleton Employee.email s.employees item h.1 hfind
      simp only [importLoop, hfind]
      exact ih _ ⟨hnew, h.2⟩

theorem uploadFile_unique (s : Store) (employeeData : List Employee) (h : UniqueKeys s) :
    UniqueKeys (uploadFile s employeeData).2 :=
  importLoop_unique s employeeData h

theorem mem_updateFirst_email (id : ObjectId) (body : EmployeeBody) (es : List Employee)
    (a : String)
    (h : a ∈ (updateFirst (fun e => e._id == id) (fun e => body.toEmployee e._id) es).map
      Employee.email) :
    a ∈ es.map Employee.email ∨ a = body.email := by
  induction es with
  | nil => simp [updateFirst] at h
  | cons x xs ih =>
    by_cases hx : x._id = id
    · simp only [updateFirst, hx, beq_self_eq_true, if_true, List.map_cons,
        List.mem_cons] at h
      rcases h with h | h
      · right; rw [h]; rfl
      · left; exact List.mem_cons_of_mem _ h
    · have hx' : (x._id == id) = false := by simpa using hx
      simp only [updateFirst, hx', Bool.false_eq_true, if_false, List.map_cons,
        List.mem_cons] at h
      rcases h with h | h
      · left; rw [h]; exact List.mem_cons_self _ _
      · rcases ih h with h | h
        · left; exact List.mem_cons_of_mem _ h
        · right; exact h

theorem updateFirst_unique_email (id : ObjectId) (body : EmployeeBody) (es : List Employee)
    (hemail : (es.map Employee.email).Nodup)
    (hother : ∀ e ∈ es.eraseP (fun e => e._id == id), e.email ≠ body.email) :
    ((updateFirst (fun e => e._id == id) (fun e => body.toEmployee e._id) es).map
      Employee.email).Nodup := by
  induction es with
  | nil => simp [updateFirst]
  | cons x xs ih =>
    rw [List.map_cons, List.nodup_cons] at hemail
    by_cases hx : x._id = id
    · have hpos : (x._id == id) = true := by simpa using hx
      have herase : (x :: xs).eraseP (fun e => e._id == id) = xs := by
        simp [List.eraseP_cons, hx]
      rw [herase] at hother
      simp only [updateFirst, hpos, if_true, List.map_cons, List.nodup_cons]
      refine ⟨?_, hemail.2⟩
      intro hmem
      obtain ⟨e, he, hee⟩ := List.mem_map.1 hmem
      exact hother e he hee
    · have hx' : (x._id == id) = false := by simpa using hx
      have herase : (x :: xs).eraseP (fun e => e._id == id)
          = x :: xs.eraseP (fun e => e._id == id) := by
        simp [List.eraseP_cons, hx]
      rw [herase] at hother
      simp only [updateFirst, hx', Bool.false_eq_true, if_false, List.map_cons,
        List.nodup_cons]
      refine ⟨?_, ih hemail.2 (fun e he => hother e (List.mem_cons_of_mem _ he))⟩
      intro hmem
      rcases mem_updateFirst_email id body xs _ hmem with h | h
      · exact hemail.1 h
      · exact hother x (List.mem_cons_self _ _) h

/-- With a unique index on `email` in the store, `editEmployee` keeps the emails distinct:
the write that would repeat an email is rejected by the store. -/
theorem editEmployee_unique_of_index (validate : EmployeeBody → Bool) (s : Store) (_id : RawId)
    (body : EmployeeBody) (h : UniqueKeys s) :
    UniqueKeys (editEmployee validate true s _id body).2 := by
  by_cases hv : validate body = true
  swap
  · simpa [editEmployee, hv] using h
  cases _id with
  | malformed =>
    simpa [editEmployee, hv, findByIdAndUpdate, castId, bind, Except.bind] using h
  | wellFormed id =>
    cases hfind : s.employees.find? (fun e => e._id == id) with
    | none =>
      simpa [editEmployee, hv, findByIdAndUpdate, castId, bind, Except.bind, hfind, pure,
        Except.pure] using h
    | some old =>
      by_cases hdup : (s.employees.eraseP (fun e => e._id == id)).any
          (fun e => e.email == body.email) = true
      · simpa [editEmployee, hv, findByIdAndUpdate, castId, bind, Except.bind, hfind, hdup,
          throw, throwThe, MonadExceptOf.throw] using h
      · have hother : ∀ e ∈ s.employees.eraseP (fun e => e._id == id),
            e.email ≠ body.email := by
          intro e he heq
          apply hdup
          rw [List.any_eq_true]
          exact ⟨e, he, by simp [heq]⟩
        have hnew := updateFirst_unique_email id body s.employees h.1 hother
        have hdup' : (s.employees.eraseP (fun e => e._id == id)).any
            (fun e => e.email == body.email) = false := by
          simpa using hdup
        have hres : (editEmployee validate true s (.wellFormed id) body).2 =
            { s with employees := (updateFirst (fun e => e._id == id)
                (fun e => body.toEmployee e._id) s.employees) } := by
          simp [editEmployee, hv, findByIdAndUpdate, castId, bind, Except.bind, hfind, hdup',
            pure, Except.pure]
        rw [hres]
        exact ⟨hnew, h.2⟩

/-- The handler `editEmployee` makes no check of the email itself: were the collection
without its unique index, the valid `sampleBody` would give employee 100 of the sample store
the email of employee 101 and be answered 200, where `addEmployee` answers 409 to the same
body. With the index the store rejects the write. -/
theorem editEmployee_relies_on_index :
    UniqueKeys sampleStore ∧ sampleValidate sampleBody = true ∧
    (editEmployee sampleValidate false sampleStore (.wellFormed 100) sampleBody).1.code = 200 ∧
    ¬ UniqueKeys (editEmployee sampleValidate false sampleStore (.wellFormed 100) sampleBody).2 ∧
    (editEmployee sampleValidate employeeEmailUnique sampleStore (.wellFormed 100)
      sampleBody).1.code = 500 ∧
    (editEmployee sampleValidate employeeEmailUnique sampleStore (.wellFormed 100)
      sampleBody).2 = sampleStore ∧
    (addEmployee sampleValidate sampleStore 104 sampleBody).1.code = 409 ∧
    (addEmployee sampleValidate sampleStore 104 sampleBody).2 = sampleStore := by
  decide

/-- C12: if no two employees share an email, no two departments share a name and no two
positions share a name, the same holds after one run of any mutating handler, whatever the
request: `addDepartment`, `addPosition`, `addEmployee`, `editEmployee` (on the employees
collection with its unique index on `email`), the three delete handlers, and the import loop
of `uploadFile`. -/
theorem uniqueness_is_invariant (validate : EmployeeBody → Bool) (s : Store)
    (h : UniqueKeys s) :
    (∀ fresh department, UniqueKeys (addDepartment s fresh department).2) ∧
    (∀ fresh position department_id,
      UniqueKeys (addPosition s fresh position department_id).2) ∧
    (∀ fresh body, UniqueKeys (addEmployee validate s fresh body).2) ∧
    (∀ _id body, UniqueKeys (editEmployee validate employeeEmailUnique s _id body).2) ∧
    (∀ _id, UniqueKeys (deleteEmployee s _id).2) ∧
    (∀ _id, UniqueKeys (deleteDepartment s _id).2) ∧
    (∀ _id, UniqueKeys (deletePosition s _id).2) ∧
    (∀ employeeData, UniqueKeys (importLoop s employeeData).2 ∧
      UniqueKeys (uploadFile s employeeData).2) :=
  ⟨fun fresh department => addDepartment_unique s fresh department h,
    fun fresh position department_id => addPosition_unique s fresh position department_id h,
    fun fresh body => addEmployee_unique validate s fresh body h,
    fun _id body => editEmployee_unique_of_index validate s _id body h,
    fun _id => deleteEmployee_unique s _id h,
    fun _id => deleteDepartment_unique s _id h,
    fun _id => deletePosition_unique s _id h,
    fun employeeData =>
      ⟨importLoop_unique s employeeData h, uploadFile_unique s employeeData h⟩⟩

/-- Witness of C12 on the sample store, whose emails and names are unique: the edit that
would give employee 100 the email of employee 101, and the import of three rows. -/
theorem uniqueness_is_invariant_witness :
    UniqueKeys sampleStore ∧
    UniqueKeys (editEmployee sampleValidate employeeEmailUnique sampleStore (.wellFormed 100)
      sampleBody).2 ∧
    UniqueKeys (uploadFile sampleStore sampleImport).2 :=
  ⟨by decide,
    (uniqueness_is_invariant sampleValidate sampleStore (by decide)).2.2.2.1
      (.wellFormed 100) sampleBody,
    ((uniqueness_is_invariant sampleValidate sampleStore (by decide)).2.2.2.2.2.2.2
      sampleImport).2⟩

/-! ## An identifier that matches no employee -/

theorem fetchEmployeeById_missing (s : Store) (id : ObjectId)
    (h : ∀ e ∈ s.employees, e._id ≠ id) :
    fetchEmployeeById s (.wellFormed id) =
      { code := 200, status := "success", message := "Get employee successfully",
        data := .employee none } := by
  have hfind : s.employees.find? (fun e => e._id == id) = none := by
    rw [List.find?_eq_none]
    intro e he
    simpa using h e he
  simp [fetchEmployeeById, findById, castId, bind, Except.bind, pure, Except.pure, hfind]

theorem editEmployee_missing (validate : EmployeeBody → Bool) (uniqueEmail : Bool) (s : Store)
    (id : ObjectId) (body : EmployeeBody) (hv : validate body = true)
    (h : ∀ e ∈ s.employees, e._id ≠ id) :
    editEmployee validate uniqueEmail s (.wellFormed id) body =
      ({ code := 500, status := "error", message := "Failed to update employee",
         data := .empty }, s) := by
  have hfind : s.employees.find? (fun e => e._id == id) = none := by
    rw [List.find?_eq_none]
    intro e he
    simpa using h e he
  simp [editEmployee, hv, findByIdAndUpdate, castId, bind, Except.bind, pure, Except.pure,
    hfind]

/-- C11, on the sample store, where no employee has identifier 999: `fetchEmployeeById`
answers 200 with status "success" and `null` data, and `editEmployee` with a valid body
answers 500, with or without a unique index in the store; neither answers 404, the code
`deleteEmployee` gives for the same identifier. -/
theorem missing_employee_not_404 :
    (∀ e ∈ sampleStore.employees, e._id ≠ 999) ∧
    (fetchEmployeeById sampleStore (.wellFormed 999)).code = 200 ∧
    (fetchEmployeeById sampleStore (.wellFormed 999)).status = "success" ∧
    (fetchEmployeeById sampleStore (.wellFormed 999)).data = .employee none ∧
    sampleValidate sampleBody = true ∧
    (editEmployee sampleValidate false sampleStore (.wellFormed 999) sampleBody).1.code = 500 ∧
    (editEmployee sampleValidate true sampleStore (.wellFormed 999) sampleBody).1.code = 500 ∧
    (deleteEmployee sampleStore (.wellFormed 999)).1.code = 404 := by
  decide

end EmployeeManagement
